import Mathlib

/-!
# Verity marketplace — formal model and verification

A shallow embedding of the Verity escrow-less NFT marketplace program
(`programs/verity/src`).  Machine integers are modelled as `Nat` (for `u64`,
`u128`) and `Int` (for `i64`), with the checked / saturating / casting
behaviour of the Rust operations made explicit.  Fallible instruction
handlers return `Except VerityError`.  Public keys are modelled as opaque
`Nat` identifiers (`Pubkey::default()` is `0`).
-/

/-! ## Machine-integer primitives -/

/-- Largest `u64` value. -/
def U64_MAX : Nat := 2 ^ 64 - 1

/-- Largest `u128` value. -/
def U128_MAX : Nat := 2 ^ 128 - 1

/-- Smallest `i64` value. -/
def I64_MIN : Int := -(2 ^ 63)

/-- Largest `i64` value. -/
def I64_MAX : Int := 2 ^ 63 - 1

/-- Rust `u128::checked_mul`. -/
def u128_checked_mul (a b : Nat) : Option Nat :=
  if a * b ≤ U128_MAX then some (a * b) else none

/-- Rust `u128::checked_div`: `none` exactly on division by zero. -/
def u128_checked_div (a b : Nat) : Option Nat :=
  if b = 0 then none else some (a / b)

/-- Rust `u64::checked_sub`: `none` on underflow. -/
def u64_checked_sub (a b : Nat) : Option Nat :=
  if b ≤ a then some (a - b) else none

/-- Rust `u64::checked_add`: `none` on overflow past `U64_MAX`. -/
def u64_checked_add (a b : Nat) : Option Nat :=
  if a + b ≤ U64_MAX then some (a + b) else none

/-- Rust `i64::checked_sub`: `none` when the difference leaves the i64 range. -/
def i64_checked_sub (a b : Int) : Option Int :=
  if I64_MIN ≤ a - b ∧ a - b ≤ I64_MAX then some (a - b) else none

/-- Rust `i64::saturating_sub`: the difference clamped to the i64 range. -/
def i64_saturating_sub (a b : Int) : Int :=
  max I64_MIN (min I64_MAX (a - b))

/-- Rust `u128::saturating_mul`. -/
def u128_saturating_mul (a b : Nat) : Nat :=
  min (a * b) U128_MAX

/-- Rust `as u64` cast from `u128`: truncation modulo `2^64`. -/
def u64_cast (x : Nat) : Nat := x % 2 ^ 64

/-! ## Data model (`state.rs`) -/

/-- The `PriceType` enum from `state.rs`. -/
inductive PriceType
  | Fixed
  | LinearDecay
  | Exponential
  deriving DecidableEq

/-- The `PriceConfig` struct from `state.rs`: `start_price`/`min_price` are `u64`,
`start_ts`/`duration` are `i64`. -/
structure PriceConfig where
  price_type : PriceType
  start_price : Nat
  min_price : Nat
  start_ts : Int
  duration : Int
  deriving DecidableEq

/-- The `ListingConditions` struct from `state.rs`. -/
structure ListingConditions where
  min_floor : Option Nat
  valid_from : Option Int
  valid_until : Option Int
  deriving DecidableEq

/-- The `Listing` account from `state.rs` (pubkeys as `Nat`). -/
structure Listing where
  seller : Nat
  mint : Nat
  user_vault : Nat
  price_config : PriceConfig
  conditions : ListingConditions
  state : Nat
  bump : Nat
  deriving DecidableEq

/-- The `UserVault` account from `state.rs`. -/
structure UserVault where
  owner : Nat
  mint : Nat
  vault_ata : Nat
  bump : Nat
  deriving DecidableEq

/-- The `Config` account from `state.rs`. -/
structure Config where
  authority : Nat
  fee_bps : Nat
  fee_recipient : Nat
  deriving DecidableEq

/-- The `STATE_ACTIVE` listing-state constant from `state.rs`. -/
def STATE_ACTIVE : Nat := 0

/-- The `STATE_CANCELLED` listing-state constant from `state.rs`. -/
def STATE_CANCELLED : Nat := 1

/-- The `STATE_SOLD` listing-state constant from `state.rs`. -/
def STATE_SOLD : Nat := 2

/-- An SPL token account, restricted to the fields the program reads. -/
structure TokenAccount where
  key : Nat
  owner : Nat
  mint : Nat
  amount : Nat
  deriving DecidableEq

/-! ## Pricing engine (`state.rs::calculate_price`) -/

/-- Function `calculate_price` from `state.rs`.  `LinearDecay` computes
`elapsed = current_ts.saturating_sub(start_ts)`, and in the interior
`drop = ((diff as u128).saturating_mul(elapsed as u128)).saturating_div(duration as u128) as u64`
followed by `start_price.saturating_sub(drop).max(min_price)`.  (`u64`
`saturating_sub` is `Nat` subtraction; the `as u128` casts of `elapsed` and
`duration` are value-preserving in the branch where they occur, which only
runs with `0 < elapsed < duration`; Rust `saturating_div` would panic on a
zero divisor, which that same branch condition rules out.) -/
def calculate_price (config : PriceConfig) (current_ts : Int) : Nat :=
  match config.price_type with
  | PriceType.Fixed => config.start_price
  | PriceType.LinearDecay =>
    if current_ts ≤ config.start_ts then
      config.start_price
    else
      let elapsed := i64_saturating_sub current_ts config.start_ts
      if elapsed ≥ config.duration then
        config.min_price
      else
        let diff := config.start_price - config.min_price
        let drop := u64_cast
          (u128_saturating_mul diff elapsed.toNat / config.duration.toNat)
        max (config.start_price - drop) config.min_price
  | PriceType.Exponential => config.start_price

deriving instance DecidableEq for Except

/-! ## Errors (`error.rs`)

`VerityError` from `error.rs`, together with the additional variants that the
legacy attestation path (`attestation.rs`, `initialize_attestor_state.rs`,
`initialize_listing.rs`) references.  Those extra variants — named in the
spec's error-handling section — are absent from the `error.rs` under `src/`;
they are listed after the `error.rs` ones.  `ConstraintViolation` stands for
Anchor's generic raw-constraint failure (a `constraint = …` clause with no
custom `@ error`). -/

/-- Error codes surfaced by the program (see the section comment above). -/
inductive VerityError
  | ListingNotActive
  | ListingNotYetValid
  | UnauthorizedVaultOwner
  | UnauthorizedSeller
  | InvalidPrice
  | InvalidDuration
  | InvalidTokenAmount
  | ArithmeticOverflow
  | UnsupportedMint
  | ListingExpired
  | VaultAlreadyExists
  | VaultMismatch
  | FloorTooLow
  | InvalidTimeWindow
  | VaultLocked
  | NftNotInVault
  | UnauthorizedAttestor
  | AttestationUsed
  | AttestationExpired
  | FloorTooHigh
  | InvalidMetadata
  | ListingNotOpen
  | AlreadyInitialized
  | ConstraintViolation
  deriving DecidableEq

/-! ## Fee splitter (`buy_now.rs` handler, fee computation) -/

/-- The fee computation from `buy_now.rs::handler` (lines 103–121): marketplace
fee and royalty as widened checked multiply / divide then `as u64`, seller
amount as two `u64` checked subtractions.  Result `(marketplace_fee, royalty,
seller_amount)`. -/
def buyNowSplit (fee_bps price : Nat) : Option (Nat × Nat × Nat) :=
  match u128_checked_mul price fee_bps with
  | none => none
  | some m1 =>
    match u128_checked_div m1 10000 with
    | none => none
    | some m2 =>
      let marketplace_fee := u64_cast m2
      match u128_checked_mul price 500 with
      | none => none
      | some r1 =>
        match u128_checked_div r1 10000 with
        | none => none
        | some r2 =>
          let royalty := u64_cast r2
          match u64_checked_sub price marketplace_fee with
          | none => none
          | some t =>
            match u64_checked_sub t royalty with
            | none => none
            | some seller_amount => some (marketplace_fee, royalty, seller_amount)

/-- Destination of a lamport transfer issued by `buy_now.rs::handler`.
The handler only ever names two destinations: the seller account and the fee
recipient (the royalty transfer at lines 160–174 is sent to the seller). -/
inductive Party
  | Seller
  | FeeRecipient
  deriving DecidableEq

/-- The ordered lamport transfers issued by `buy_now.rs::handler`
(lines 128–174): seller amount to the seller, marketplace fee to the fee
recipient, then the royalty — to the seller; each transfer is skipped when its
amount is zero. -/
def buyNowTransfers (fee_bps price : Nat) : Option (List (Party × Nat)) :=
  (buyNowSplit fee_bps price).map fun x =>
    (if 0 < x.2.2 then [(Party.Seller, x.2.2)] else []) ++
    (if 0 < x.1 then [(Party.FeeRecipient, x.1)] else []) ++
    (if 0 < x.2.1 then [(Party.Seller, x.2.1)] else [])

/-- Total lamports a transfer list pays to one party. -/
def paidTo (p : Party) : List (Party × Nat) → Nat
  | [] => 0
  | (q, a) :: rest => (if q = p then a else 0) + paidTo p rest

/-! ## `initialize_config.rs` -/

/-- Handler of `initialize_config.rs`: rejects `fee_bps > 1000`, otherwise
creates the singleton `Config`. -/
def initialize_config (authority : Nat) (fee_bps : Nat) (fee_recipient : Nat) :
    Except VerityError Config :=
  if fee_bps ≤ 1000 then
    Except.ok { authority := authority, fee_bps := fee_bps, fee_recipient := fee_recipient }
  else
    Except.error VerityError.InvalidPrice

/-! ## `create_listing.rs` -/

/-- Handler of `create_listing.rs` (lines 57–93): price validation, decay
duration validation, time-window validation, then the Active listing record.
The account constraints of `CreateListing` (vault ownership and content) are
checked by Anchor before the handler runs and are not part of the price /
duration / window claims, so the model takes the already-validated account
data (`seller`, vault key and mint, `bump`) as parameters. -/
def create_listing (seller vault_mint user_vault_key : Nat) (price_type : PriceType)
    (start_price min_price : Nat) (start_ts duration : Int)
    (min_floor : Option Nat) (valid_from valid_until : Option Int)
    (bump : Nat) : Except VerityError Listing :=
  if ¬ 0 < start_price then Except.error VerityError.InvalidPrice
  else if ¬ 0 < min_price then Except.error VerityError.InvalidPrice
  else if ¬ min_price ≤ start_price then Except.error VerityError.InvalidPrice
  else if price_type ≠ PriceType.Fixed ∧ ¬ 0 < duration then
    Except.error VerityError.InvalidDuration
  else
    match valid_from, valid_until with
    | some f, some u =>
      if ¬ f < u then Except.error VerityError.InvalidTimeWindow
      else Except.ok
        { seller := seller, mint := vault_mint, user_vault := user_vault_key,
          price_config :=
            { price_type := price_type, start_price := start_price,
              min_price := min_price, start_ts := start_ts, duration := duration },
          conditions :=
            { min_floor := min_floor, valid_from := valid_from, valid_until := valid_until },
          state := STATE_ACTIVE, bump := bump }
    | _, _ =>
      Except.ok
        { seller := seller, mint := vault_mint, user_vault := user_vault_key,
          price_config :=
            { price_type := price_type, start_price := start_price,
              min_price := min_price, start_ts := start_ts, duration := duration },
          conditions :=
            { min_floor := min_floor, valid_from := valid_from, valid_until := valid_until },
          state := STATE_ACTIVE, bump := bump }

/-! ## `withdraw_from_vault.rs` -/

/-- The asset movements performed by a successful `withdraw_from_vault`. -/
inductive WithdrawEffect
  | transferNftToOwner
  | closeVaultAta
  | closeUserVault
  deriving DecidableEq

/-- Model of `withdraw_from_vault.rs`: the `WithdrawFromVault` account constraints in
declaration order (vault owner, vault ATA key and amount, owner token account
owner and mint), then the handler, which unconditionally transfers the NFT
back to the owner, closes the vault ATA and closes the `UserVault`.  No
`Listing` account appears among the instruction's inputs at all. -/
def withdraw_from_vault (vault : UserVault) (vault_ata : TokenAccount)
    (owner : Nat) (owner_token_account : TokenAccount) :
    Except VerityError (List WithdrawEffect) :=
  if vault.owner ≠ owner then Except.error VerityError.UnauthorizedVaultOwner
  else if vault_ata.key ≠ vault.vault_ata then Except.error VerityError.VaultMismatch
  else if vault_ata.amount ≠ 1 then Except.error VerityError.InvalidTokenAmount
  else if owner_token_account.owner ≠ owner then
    Except.error VerityError.UnauthorizedVaultOwner
  else if owner_token_account.mint ≠ vault.mint then
    Except.error VerityError.VaultMismatch
  else Except.ok
    [WithdrawEffect.transferNftToOwner, WithdrawEffect.closeVaultAta,
     WithdrawEffect.closeUserVault]

/-! ## Attestation ledger (`attestation.rs`, `initialize_attestor_state.rs`)

The attestation-path handlers live under `src/` but their record types are
imported from `crate::state`, whose `state.rs` under `src/` no longer declares
them; the field layouts below follow the spec's data model (which matches
every field access those handlers make).  The same holds for the listing
shape this path uses (`initialize_listing.rs`'s flat `Listing` with a
`min_price` and `vault_ata` field, placed in namespace `Legacy` here) and the
`STATE_OPEN` constant, whose concrete value is immaterial: the handlers use it
only in equality tests. -/

/-- Modelled from the spec: `Attestation` record — attestor identity,
asset-collection identifier, attested floor price, timestamp, nonce, used
flag (the struct declaration is absent from `src/state.rs`; fields match
every access in `attestation.rs`). -/
structure Attestation where
  attestor : Nat
  collection : Nat
  floor : Nat
  ts : Int
  nonce : Nat
  used : Bool
  deriving DecidableEq

/-- Modelled from the spec: `AttestorState` record — attestor identity and
last-issued nonce counter (declaration absent from `src/state.rs`). -/
structure AttestorState where
  attestor : Nat
  last_nonce : Nat
  deriving DecidableEq

/-- Modelled from the spec: `STATE_OPEN` legacy listing-state constant
referenced by `attestation.rs` / `initialize_listing.rs`. -/
def STATE_OPEN : Nat := 0

namespace Legacy

/-- The flat listing shape used by the legacy attestation path, as filled in
by `initialize_listing.rs::handler`. -/
structure Listing where
  seller : Nat
  mint : Nat
  vault_ata : Nat
  start_price : Nat
  min_price : Nat
  start_ts : Int
  duration : Int
  state : Nat
  bump : Nat
  deriving DecidableEq

end Legacy

/-- Handler of `initialize_attestor_state.rs`: requires the freshly allocated
account's `attestor` field to be `Pubkey::default()` (`0` in this model),
failing with `AlreadyInitialized` otherwise, then stores the attestor key
and `last_nonce = 0`. -/
def initialize_attestor_state (pre : AttestorState) (attestor : Nat) :
    Except VerityError AttestorState :=
  if pre.attestor ≠ 0 then Except.error VerityError.AlreadyInitialized
  else Except.ok { attestor := attestor, last_nonce := 0 }

/-- Handler `create_attestation_handler` of `attestation.rs`: requires the caller to be
the config authority; stamps the new attestation with the pre-state
`last_nonce` and `used = false`; then increments `last_nonce` with
`checked_add`, failing the whole operation with `ArithmeticOverflow` (so no
attestation is created on overflow). -/
def create_attestation (config : Config) (attestor : Nat) (st : AttestorState)
    (now : Int) (collection floor : Nat) :
    Except VerityError (AttestorState × Attestation) :=
  if attestor ≠ config.authority then Except.error VerityError.UnauthorizedAttestor
  else
    match u64_checked_add st.last_nonce 1 with
    | none => Except.error VerityError.ArithmeticOverflow
    | some n =>
      Except.ok ({ st with last_nonce := n },
        { attestor := attestor, collection := collection, floor := floor,
          ts := now, nonce := st.last_nonce, used := false })

/-- Iterated issuance: `k` sequential `create_attestation` calls by the config authority,
threading the attestor state; returns the final state and the list of nonces
stamped on the issued attestations, or `none` if any call fails. -/
def issueRun (config : Config) (now : Int) (collection floor : Nat) :
    Nat → AttestorState → Option (AttestorState × List Nat)
  | 0, st => some (st, [])
  | k + 1, st =>
    match create_attestation config config.authority st now collection floor with
    | Except.ok (st', att) =>
      (issueRun config now collection floor k st').map fun r => (r.1, att.nonce :: r.2)
    | Except.error _ => none

/-- Ordered side effects of a successful `force_cancel`. -/
inductive Effect
  | markUsed
  | transferNft
  | closeVaultAta
  deriving DecidableEq

/-- The accounts of `ForceCancelWithAttestation` (`attestation.rs`). -/
structure ForceCancelCtx where
  listing : Legacy.Listing
  vault_ata : TokenAccount
  seller : Nat
  seller_token_account : TokenAccount
  attestation : Attestation
  attestor_state : AttestorState
  config : Config
  deriving DecidableEq

/-- Model of `attestation.rs`: the `ForceCancelWithAttestation` account constraints in
declaration order (listing open; vault ATA key / amount; seller; seller token
account owner / mint; attestation attestor and unused; attestor state match),
then `force_cancel_handler`: collection match, TTL via `i64` `checked_sub`
with `age ≤ 300`, floor strictly below the listing's `min_price`; on success
the attestation is marked used first, then the NFT transfer and vault-ATA
close are issued (the effect list records that order). -/
def force_cancel (ctx : ForceCancelCtx) (now : Int) (collection : Nat) :
    Except VerityError (Attestation × List Effect) :=
  if ctx.listing.state ≠ STATE_OPEN then Except.error VerityError.ListingNotOpen
  else if ctx.vault_ata.key ≠ ctx.listing.vault_ata then
    Except.error VerityError.ConstraintViolation
  else if ctx.vault_ata.amount ≠ 1 then Except.error VerityError.ConstraintViolation
  else if ctx.seller ≠ ctx.listing.seller then Except.error VerityError.UnauthorizedSeller
  else if ctx.seller_token_account.owner ≠ ctx.seller then
    Except.error VerityError.ConstraintViolation
  else if ctx.seller_token_account.mint ≠ ctx.listing.mint then
    Except.error VerityError.ConstraintViolation
  else if ctx.attestation.attestor ≠ ctx.config.authority then
    Except.error VerityError.UnauthorizedAttestor
  else if ctx.attestation.used then Except.error VerityError.AttestationUsed
  else if ctx.attestor_state.attestor ≠ ctx.attestation.attestor then
    Except.error VerityError.ConstraintViolation
  else if ctx.attestation.collection ≠ collection then
    Except.error VerityError.InvalidMetadata
  else
    match i64_checked_sub now ctx.attestation.ts with
    | none => Except.error VerityError.ArithmeticOverflow
    | some age =>
      if ¬ age ≤ 300 then Except.error VerityError.AttestationExpired
      else if ¬ ctx.attestation.floor < ctx.listing.min_price then
        Except.error VerityError.FloorTooHigh
      else
        Except.ok ({ ctx.attestation with used := true },
          [Effect.markUsed, Effect.transferNft, Effect.closeVaultAta])

/-! ## Helper lemmas -/

theorem paidTo_append (p : Party) (l1 l2 : List (Party × Nat)) :
    paidTo p (l1 ++ l2) = paidTo p l1 + paidTo p l2 := by
  induction l1 with
  | nil => simp [paidTo]
  | cons a l ih => cases a; simp [paidTo, ih, Nat.add_assoc]

theorem i64_saturating_sub_of_pos {a b : Int} (h : b < a) :
    i64_saturating_sub a b = min I64_MAX (a - b) := by
  have h1 : I64_MIN ≤ a - b := by
    have h2 : (0:Int) < a - b := by omega
    have h3 : (I64_MIN : Int) < 0 := by norm_num [I64_MIN]
    omega
  have h2 : (I64_MIN : Int) ≤ I64_MAX := by norm_num [I64_MIN, I64_MAX]
  unfold i64_saturating_sub
  exact max_eq_right (le_min h2 h1)

theorem i64_saturating_sub_eq {a b : Int} (hpos : b < a) (h : a - b ≤ I64_MAX) :
    i64_saturating_sub a b = a - b := by
  rw [i64_saturating_sub_of_pos hpos, min_eq_right h]

theorem i64_saturating_sub_pos {a b : Int} (h : b < a) :
    0 < i64_saturating_sub a b := by
  rw [i64_saturating_sub_of_pos h]
  have h1 : (0:Int) < I64_MAX := by norm_num [I64_MAX]
  have h2 : (0:Int) < a - b := by omega
  exact lt_min h1 h2

theorem calc_linear_before (sp mp : Nat) (sts d now : Int) (h : now ≤ sts) :
    calculate_price ⟨PriceType.LinearDecay, sp, mp, sts, d⟩ now = sp := by
  simp [calculate_price, h]

theorem calc_linear_after (sp mp : Nat) (sts d now : Int) (hd : 0 < d) (hdm : d ≤ I64_MAX)
    (h : d ≤ now - sts) :
    calculate_price ⟨PriceType.LinearDecay, sp, mp, sts, d⟩ now = mp := by
  have hlt : sts < now := by omega
  have hnle : ¬ now ≤ sts := by omega
  have hsat : d ≤ i64_saturating_sub now sts := by
    rw [i64_saturating_sub_of_pos hlt]
    exact le_min hdm h
  simp [calculate_price, hnle, hsat]

theorem calc_linear_interior (sp mp : Nat) (sts d now : Int)
    (hmple : mp ≤ sp) (hsp : sp ≤ U64_MAX) (hdm : d ≤ I64_MAX)
    (hlt : sts < now) (hint : now - sts < d) :
    calculate_price ⟨PriceType.LinearDecay, sp, mp, sts, d⟩ now
      = sp - (sp - mp) * (now - sts).toNat / d.toNat := by
  have hnle : ¬ now ≤ sts := by omega
  have hsat : i64_saturating_sub now sts = now - sts :=
    i64_saturating_sub_eq hlt (by omega)
  have hnge : ¬ i64_saturating_sub now sts ≥ d := by rw [hsat]; omega
  have hd0 : (0:Int) < d := by omega
  have hentd : (now - sts).toNat ≤ d.toNat := by omega
  have hdm' : d ≤ 2 ^ 63 - 1 := by simp only [I64_MAX] at hdm; omega
  have hdn : d.toNat ≤ 2 ^ 63 - 1 := by omega
  have hmul : (sp - mp) * (now - sts).toNat ≤ U128_MAX := by
    have h1 : sp - mp ≤ 2 ^ 64 - 1 := by
      have := Nat.sub_le sp mp
      norm_num [U64_MAX] at hsp
      omega
    have h2 : (now - sts).toNat ≤ 2 ^ 63 - 1 := le_trans hentd hdn
    calc (sp - mp) * (now - sts).toNat ≤ (2 ^ 64 - 1) * (2 ^ 63 - 1) :=
          Nat.mul_le_mul h1 h2
      _ ≤ U128_MAX := by norm_num [U128_MAX]
  have hsatmul : u128_saturating_mul (sp - mp) (now - sts).toNat
      = (sp - mp) * (now - sts).toNat := min_eq_left hmul
  have hdrople : (sp - mp) * (now - sts).toNat / d.toNat ≤ sp - mp := by
    have hdtn0 : 0 < d.toNat := by omega
    calc (sp - mp) * (now - sts).toNat / d.toNat
        ≤ (sp - mp) * d.toNat / d.toNat :=
          Nat.div_le_div_right (Nat.mul_le_mul_left _ hentd)
      _ = sp - mp := Nat.mul_div_cancel _ hdtn0
  have hcast : u64_cast ((sp - mp) * (now - sts).toNat / d.toNat)
      = (sp - mp) * (now - sts).toNat / d.toNat := by
    unfold u64_cast
    have : (sp - mp) * (now - sts).toNat / d.toNat < 2 ^ 64 := by
      have h1 := Nat.sub_le sp mp
      norm_num [U64_MAX] at hsp
      omega
    exact Nat.mod_eq_of_lt this
  have hmain : calculate_price ⟨PriceType.LinearDecay, sp, mp, sts, d⟩ now
      = max (sp - u64_cast (u128_saturating_mul (sp - mp)
          (i64_saturating_sub now sts).toNat / d.toNat)) mp := by
    simp [calculate_price, hnle, hnge]
  rw [hmain, hsat, hsatmul, hcast]
  have : mp ≤ sp - (sp - mp) * (now - sts).toNat / d.toNat := by omega
  exact max_eq_left this

theorem calc_linear_bounds (sp mp : Nat) (sts d : Int) (hmple : mp ≤ sp) (now : Int) :
    mp ≤ calculate_price ⟨PriceType.LinearDecay, sp, mp, sts, d⟩ now ∧
    calculate_price ⟨PriceType.LinearDecay, sp, mp, sts, d⟩ now ≤ sp := by
  unfold calculate_price
  simp only
  split_ifs with h1 h2
  · exact ⟨hmple, le_refl sp⟩
  · exact ⟨le_refl mp, hmple⟩
  · exact ⟨le_max_right _ _, max_le (Nat.sub_le _ _) hmple⟩

/-! ## Claim theorems -/

/-- Claim C6: For every `LinearDecay` price config with
`start_price ≥ min_price > 0` and `duration > 0` (fields in machine range),
`calculate_price` returns `start_price` when `now ≤ start_ts`, returns
`min_price` once `now − start_ts ≥ duration`, always lies in
`[min_price, start_price]`, and in the interior equals
`start_price − ((start_price − min_price) × (now − start_ts) / duration)`
with integer division. -/
theorem calculate_price_linear_spec (cfg : PriceConfig) (now : Int)
    (hty : cfg.price_type = PriceType.LinearDecay)
    (hmp : 0 < cfg.min_price) (hle : cfg.min_price ≤ cfg.start_price)
    (hsp : cfg.start_price ≤ U64_MAX)
    (hd : 0 < cfg.duration) (hdm : cfg.duration ≤ I64_MAX) :
    (now ≤ cfg.start_ts → calculate_price cfg now = cfg.start_price) ∧
    (cfg.duration ≤ now - cfg.start_ts → calculate_price cfg now = cfg.min_price) ∧
    (cfg.min_price ≤ calculate_price cfg now ∧
      calculate_price cfg now ≤ cfg.start_price) ∧
    (cfg.start_ts < now → now - cfg.start_ts < cfg.duration →
      calculate_price cfg now
        = cfg.start_price -
            (cfg.start_price - cfg.min_price) * (now - cfg.start_ts).toNat
              / cfg.duration.toNat) := by
  obtain ⟨pt, sp, mp, sts, d⟩ := cfg
  cases pt with
  | Fixed => simp at hty
  | Exponential => simp at hty
  | LinearDecay =>
    exact ⟨fun h => calc_linear_before sp mp sts d now h,
           fun h => calc_linear_after sp mp sts d now hd hdm h,
           calc_linear_bounds sp mp sts d hle now,
           fun h1 h2 => calc_linear_interior sp mp sts d now hle hsp hdm h1 h2⟩

/-- Witness for C6 at the spec's scenario: `LinearDecay`, `start_price = 1000`,
`min_price = 200`, `start_ts = 0`, `duration = 100`, `now = 50` → price 600. -/
theorem calculate_price_linear_spec_witness :
    calculate_price ⟨PriceType.LinearDecay, 1000, 200, 0, 100⟩ 50 = 600 := by
  have h := calculate_price_linear_spec ⟨PriceType.LinearDecay, 1000, 200, 0, 100⟩ 50
    (by decide) (by decide) (by decide) (by decide) (by decide) (by decide)
  have h2 := h.2.2.2 (by decide) (by decide)
  rw [h2]
  decide

/-- Claim C7: For every `LinearDecay` price config with
`start_price ≥ min_price > 0` and `duration > 0` (fields in machine range),
`calculate_price` is monotonically non-increasing in the time argument. -/
theorem calculate_price_monotone (cfg : PriceConfig) (t1 t2 : Int)
    (hty : cfg.price_type = PriceType.LinearDecay)
    (hmp : 0 < cfg.min_price) (hle : cfg.min_price ≤ cfg.start_price)
    (hsp : cfg.start_price ≤ U64_MAX)
    (hd : 0 < cfg.duration) (hdm : cfg.duration ≤ I64_MAX)
    (h12 : t1 ≤ t2) :
    calculate_price cfg t2 ≤ calculate_price cfg t1 := by
  obtain ⟨pt, sp, mp, sts, d⟩ := cfg
  cases pt with
  | Fixed => simp at hty
  | Exponential => simp at hty
  | LinearDecay =>
    by_cases hA : t2 ≤ sts
    · rw [calc_linear_before sp mp sts d t1 (le_trans h12 hA),
          calc_linear_before sp mp sts d t2 hA]
    · push_neg at hA
      by_cases hB : t1 ≤ sts
      · rw [calc_linear_before sp mp sts d t1 hB]
        exact (calc_linear_bounds sp mp sts d hle t2).2
      · push_neg at hB
        by_cases hC : d ≤ t2 - sts
        · rw [calc_linear_after sp mp sts d t2 hd hdm hC]
          exact (calc_linear_bounds sp mp sts d hle t1).1
        · push_neg at hC
          have hC1 : t1 - sts < d := by omega
          rw [calc_linear_interior sp mp sts d t1 hle hsp hdm hB hC1,
              calc_linear_interior sp mp sts d t2 hle hsp hdm hA hC]
          have he : (t1 - sts).toNat ≤ (t2 - sts).toNat := by omega
          exact Nat.sub_le_sub_left
            (Nat.div_le_div_right (Nat.mul_le_mul_left _ he)) sp

/-- Witness for C7: at the spec scenario config, the price at `t = 80` is at
most the price at `t = 50`. -/
theorem calculate_price_monotone_witness :
    calculate_price ⟨PriceType.LinearDecay, 1000, 200, 0, 100⟩ 80
      ≤ calculate_price ⟨PriceType.LinearDecay, 1000, 200, 0, 100⟩ 50 :=
  calculate_price_monotone ⟨PriceType.LinearDecay, 1000, 200, 0, 100⟩ 50 80
    (by decide) (by decide) (by decide) (by decide) (by decide) (by decide)
    (by decide)

/-- Claim C10: `calculate_price` is total: for every config whose fields are in
machine range — including degenerate ones (`duration ≤ 0`, `min_price >
start_price`) that `create_listing` would reject — and every timestamp, the
result is a valid `u64`; and for `LinearDecay` with `duration ≤ 0` and
`now > start_ts` it returns `min_price` through the `elapsed ≥ duration`
branch (so the division in the interior branch, whose guard forces
`0 < elapsed < duration`, is never reached with a zero divisor). -/
theorem calculate_price_total_and_degenerate (cfg : PriceConfig) (now : Int)
    (hsp : cfg.start_price ≤ U64_MAX) (hmp : cfg.min_price ≤ U64_MAX) :
    calculate_price cfg now ≤ U64_MAX ∧
    (cfg.price_type = PriceType.LinearDecay → cfg.duration ≤ 0 →
      cfg.start_ts < now → calculate_price cfg now = cfg.min_price) := by
  obtain ⟨pt, sp, mp, sts, d⟩ := cfg
  cases pt with
  | Fixed => exact ⟨hsp, by intro hty; simp at hty⟩
  | Exponential => exact ⟨hsp, by intro hty; simp at hty⟩
  | LinearDecay =>
    constructor
    · unfold calculate_price
      simp only
      split_ifs with h1 h2
      · exact hsp
      · exact hmp
      · exact max_le (le_trans (Nat.sub_le _ _) hsp) hmp
    · intro _ hd0 hlt
      dsimp only at hd0 hlt
      have hnle : ¬ now ≤ sts := by omega
      have hge : i64_saturating_sub now sts ≥ d :=
        le_of_lt (lt_of_le_of_lt hd0 (i64_saturating_sub_pos hlt))
      simp [calculate_price, hnle, hge]

/-- Witness for C10 at a degenerate config (`min_price > start_price`,
`duration = -3`) that `create_listing` would reject: the price is a valid
`u64` and equals `min_price`. -/
theorem calculate_price_total_witness :
    calculate_price ⟨PriceType.LinearDecay, 5, 10, 0, -3⟩ 7 = 10 := by
  have h := calculate_price_total_and_degenerate ⟨PriceType.LinearDecay, 5, 10, 0, -3⟩ 7
    (by decide) (by decide)
  exact h.2 (by decide) (by decide) (by decide)

/-- Claim C8: `create_listing` fails with `InvalidPrice` iff `start_price = 0` or
`min_price = 0` or `start_price < min_price`; given a valid price it fails with
`InvalidDuration` exactly when the price type is not `Fixed` and
`duration ≤ 0`; given those it fails with `InvalidTimeWindow` exactly when both
window bounds are supplied and `valid_from ≥ valid_until` (so a single supplied
bound never triggers the window-order check); on success the listing state is
`Active`. -/
theorem create_listing_validation (seller vault_mint uvk : Nat) (pt : PriceType)
    (sp mp : Nat) (sts dur : Int) (mf : Option Nat) (vf vu : Option Int)
    (bump : Nat) :
    (create_listing seller vault_mint uvk pt sp mp sts dur mf vf vu bump
        = Except.error VerityError.InvalidPrice ↔ sp = 0 ∨ mp = 0 ∨ sp < mp) ∧
    (0 < sp → 0 < mp → mp ≤ sp →
      (create_listing seller vault_mint uvk pt sp mp sts dur mf vf vu bump
          = Except.error VerityError.InvalidDuration ↔
        pt ≠ PriceType.Fixed ∧ dur ≤ 0)) ∧
    (0 < sp → 0 < mp → mp ≤ sp → (pt = PriceType.Fixed ∨ 0 < dur) →
      (create_listing seller vault_mint uvk pt sp mp sts dur mf vf vu bump
          = Except.error VerityError.InvalidTimeWindow ↔
        ∃ f u, vf = some f ∧ vu = some u ∧ u ≤ f)) ∧
    (∀ l, create_listing seller vault_mint uvk pt sp mp sts dur mf vf vu bump
        = Except.ok l → l.state = STATE_ACTIVE) := by
  by_cases h1 : 0 < sp
  case neg =>
    have hE : create_listing seller vault_mint uvk pt sp mp sts dur mf vf vu bump
        = Except.error VerityError.InvalidPrice := by
      unfold create_listing
      rw [if_pos h1]
    rw [hE]
    refine ⟨⟨fun _ => by omega, fun _ => rfl⟩, ?_, ?_, ?_⟩
    · intro hsp _ _
      exact absurd hsp h1
    · intro hsp _ _ _
      exact absurd hsp h1
    · intro l hl
      exact Except.noConfusion hl
  case pos =>
  by_cases h2 : 0 < mp
  case neg =>
    have hE : create_listing seller vault_mint uvk pt sp mp sts dur mf vf vu bump
        = Except.error VerityError.InvalidPrice := by
      unfold create_listing
      rw [if_neg (not_not_intro h1), if_pos h2]
    rw [hE]
    refine ⟨⟨fun _ => by omega, fun _ => rfl⟩, ?_, ?_, ?_⟩
    · intro _ hmp _
      exact absurd hmp h2
    · intro _ hmp _ _
      exact absurd hmp h2
    · intro l hl
      exact Except.noConfusion hl
  case pos =>
  by_cases h3 : mp ≤ sp
  case neg =>
    have hE : create_listing seller vault_mint uvk pt sp mp sts dur mf vf vu bump
        = Except.error VerityError.InvalidPrice := by
      unfold create_listing
      rw [if_neg (not_not_intro h1), if_neg (not_not_intro h2), if_pos h3]
    rw [hE]
    refine ⟨⟨fun _ => by omega, fun _ => rfl⟩, ?_, ?_, ?_⟩
    · intro _ _ hle
      exact absurd hle h3
    · intro _ _ hle _
      exact absurd hle h3
    · intro l hl
      exact Except.noConfusion hl
  case pos =>
  by_cases h4 : pt ≠ PriceType.Fixed ∧ ¬ 0 < dur
  case pos =>
    have hE : create_listing seller vault_mint uvk pt sp mp sts dur mf vf vu bump
        = Except.error VerityError.InvalidDuration := by
      unfold create_listing
      rw [if_neg (not_not_intro h1), if_neg (not_not_intro h2),
          if_neg (not_not_intro h3), if_pos h4]
    rw [hE]
    refine ⟨?_, ?_, ?_, ?_⟩
    · exact ⟨fun h => VerityError.noConfusion (Except.error.inj h), fun hc => absurd hc (by omega)⟩
    · intro _ _ _
      exact ⟨fun _ => ⟨h4.1, by omega⟩, fun _ => rfl⟩
    · intro _ _ _ hfd
      rcases hfd with hf | hd
      · exact absurd hf h4.1
      · exact absurd hd h4.2
    · intro l hl
      exact Except.noConfusion hl
  case neg =>
  rcases vf with _ | f
  · rcases vu with _ | u
    · have hE : create_listing seller vault_mint uvk pt sp mp sts dur mf none none bump
          = Except.ok
              (Listing.mk seller vault_mint uvk (PriceConfig.mk pt sp mp sts dur)
                (ListingConditions.mk mf none none) STATE_ACTIVE bump) := by
        unfold create_listing
        rw [if_neg (not_not_intro h1), if_neg (not_not_intro h2),
            if_neg (not_not_intro h3), if_neg h4]
      rw [hE]
      refine ⟨⟨fun h => Except.noConfusion h, fun hc => absurd hc (by omega)⟩, ?_, ?_, ?_⟩
      · intro _ _ _
        refine ⟨fun h => Except.noConfusion h, fun hc => absurd ⟨hc.1, by omega⟩ h4⟩
      · intro _ _ _ _
        refine ⟨fun h => Except.noConfusion h, ?_⟩
        rintro ⟨f, u, hf, _, _⟩
        exact Option.noConfusion hf
      · intro l hl
        rw [← Except.ok.inj hl]
    · have hE : create_listing seller vault_mint uvk pt sp mp sts dur mf none (some u) bump
          = Except.ok
              (Listing.mk seller vault_mint uvk (PriceConfig.mk pt sp mp sts dur)
                (ListingConditions.mk mf none (some u)) STATE_ACTIVE bump) := by
        unfold create_listing
        rw [if_neg (not_not_intro h1), if_neg (not_not_intro h2),
            if_neg (not_not_intro h3), if_neg h4]
      rw [hE]
      refine ⟨⟨fun h => Except.noConfusion h, fun hc => absurd hc (by omega)⟩, ?_, ?_, ?_⟩
      · intro _ _ _
        refine ⟨fun h => Except.noConfusion h, fun hc => absurd ⟨hc.1, by omega⟩ h4⟩
      · intro _ _ _ _
        refine ⟨fun h => Except.noConfusion h, ?_⟩
        rintro ⟨f, u', hf, _, _⟩
        exact Option.noConfusion hf
      · intro l hl
        rw [← Except.ok.inj hl]
  · rcases vu with _ | u
    · have hE : create_listing seller vault_mint uvk pt sp mp sts dur mf (some f) none bump
          = Except.ok
              (Listing.mk seller vault_mint uvk (PriceConfig.mk pt sp mp sts dur)
                (ListingConditions.mk mf (some f) none) STATE_ACTIVE bump) := by
        unfold create_listing
        rw [if_neg (not_not_intro h1), if_neg (not_not_intro h2),
            if_neg (not_not_intro h3), if_neg h4]
      rw [hE]
      refine ⟨⟨fun h => Except.noConfusion h, fun hc => absurd hc (by omega)⟩, ?_, ?_, ?_⟩
      · intro _ _ _
        refine ⟨fun h => Except.noConfusion h, fun hc => absurd ⟨hc.1, by omega⟩ h4⟩
      · intro _ _ _ _
        refine ⟨fun h => Except.noConfusion h, ?_⟩
        rintro ⟨f', u, _, hu, _⟩
        exact Option.noConfusion hu
      · intro l hl
        rw [← Except.ok.inj hl]
    · by_cases h5 : f < u
      · have hE : create_listing seller vault_mint uvk pt sp mp sts dur mf (some f) (some u) bump
            = Except.ok
                (Listing.mk seller vault_mint uvk (PriceConfig.mk pt sp mp sts dur)
                  (ListingConditions.mk mf (some f) (some u)) STATE_ACTIVE bump) := by
          unfold create_listing
          rw [if_neg (not_not_intro h1), if_neg (not_not_intro h2),
              if_neg (not_not_intro h3), if_neg h4]
          simp only
          rw [if_neg (not_not_intro h5)]
        rw [hE]
        refine ⟨⟨fun h => Except.noConfusion h, fun hc => absurd hc (by omega)⟩, ?_, ?_, ?_⟩
        · intro _ _ _
          refine ⟨fun h => Except.noConfusion h, fun hc => absurd ⟨hc.1, by omega⟩ h4⟩
        · intro _ _ _ _
          refine ⟨fun h => Except.noConfusion h, ?_⟩
          rintro ⟨f', u', hf, hu, hle'⟩
          rw [← Option.some.inj hf, ← Option.some.inj hu] at hle'
          omega
        · intro l hl
          rw [← Except.ok.inj hl]
      · have hE : create_listing seller vault_mint uvk pt sp mp sts dur mf (some f) (some u) bump
            = Except.error VerityError.InvalidTimeWindow := by
          unfold create_listing
          rw [if_neg (not_not_intro h1), if_neg (not_not_intro h2),
              if_neg (not_not_intro h3), if_neg h4]
          simp only
          rw [if_pos h5]
        rw [hE]
        refine ⟨?_, ?_, ?_, ?_⟩
        · exact ⟨fun h => VerityError.noConfusion (Except.error.inj h),
                 fun hc => absurd hc (by omega)⟩
        · intro _ _ _
          exact ⟨fun h => VerityError.noConfusion (Except.error.inj h),
                 fun hc => absurd ⟨hc.1, by omega⟩ h4⟩
        · intro _ _ _ _
          exact ⟨fun _ => ⟨f, u, rfl, rfl, by omega⟩, fun _ => rfl⟩
        · intro l hl
          exact Except.noConfusion hl

/-- Witness for C8: a `Fixed` listing with valid prices and only a lower window
bound is created in the `Active` state. -/
theorem create_listing_validation_witness :
    create_listing 1 2 3 PriceType.Fixed 100 50 0 0 none (some 5) none 0
      = Except.ok
          (Listing.mk 1 2 3 (PriceConfig.mk PriceType.Fixed 100 50 0 0)
            (ListingConditions.mk none (some 5) none) STATE_ACTIVE 0) ∧
    (Listing.mk 1 2 3 (PriceConfig.mk PriceType.Fixed 100 50 0 0)
        (ListingConditions.mk none (some 5) none) STATE_ACTIVE 0).state
      = STATE_ACTIVE := by
  have h := (create_listing_validation 1 2 3 PriceType.Fixed 100 50 0 0
    none (some 5) none 0).2.2.2
  exact ⟨by decide, h _ (by decide)⟩

/-- Counterexample for C9: a call by the vault's owner nevertheless fails (with
`InvalidTokenAmount`, because the vault token account does not hold exactly
one token), so vault ownership is not the only constraint on
`withdraw_from_vault`. -/
theorem withdraw_from_vault_owner_not_sufficient :
    (UserVault.mk 1 2 3 0).owner = 1 ∧
    withdraw_from_vault (UserVault.mk 1 2 3 0) (TokenAccount.mk 3 9 2 0) 1
        (TokenAccount.mk 4 1 2 1)
      = Except.error VerityError.InvalidTokenAmount := by decide

/-- Claim C9, amended: `withdraw_from_vault` checks only that the caller owns
the vault and that the supplied token accounts match the vault and hold the
NFT; no `Listing` account is among its inputs, so for every listing — in
particular an `Active` one referencing this very vault — the withdrawal
succeeds regardless, leaving that listing dangling. -/
theorem withdraw_from_vault_ignores_listings (vault : UserVault)
    (vault_ata : TokenAccount) (owner : Nat) (owner_token_account : TokenAccount)
    (vault_key : Nat) (l : Listing)
    (hl1 : l.state = STATE_ACTIVE) (hl2 : l.user_vault = vault_key)
    (h1 : vault.owner = owner) (h2 : vault_ata.key = vault.vault_ata)
    (h3 : vault_ata.amount = 1) (h4 : owner_token_account.owner = owner)
    (h5 : owner_token_account.mint = vault.mint) :
    withdraw_from_vault vault vault_ata owner owner_token_account
      = Except.ok [WithdrawEffect.transferNftToOwner, WithdrawEffect.closeVaultAta,
          WithdrawEffect.closeUserVault] := by
  unfold withdraw_from_vault
  simp [h1, h2, h3, h4, h5]

/-- Witness for C9: concrete state with an `Active` listing whose
`user_vault` field references the withdrawn vault; the withdrawal succeeds
anyway. -/
theorem withdraw_from_vault_ignores_listings_witness :
    withdraw_from_vault (UserVault.mk 1 2 3 0) (TokenAccount.mk 3 9 2 1) 1
        (TokenAccount.mk 4 1 2 0)
      = Except.ok [WithdrawEffect.transferNftToOwner, WithdrawEffect.closeVaultAta,
          WithdrawEffect.closeUserVault] :=
  withdraw_from_vault_ignores_listings (UserVault.mk 1 2 3 0)
    (TokenAccount.mk 3 9 2 1) 1 (TokenAccount.mk 4 1 2 0) 77
    (Listing.mk 1 2 77 (PriceConfig.mk PriceType.Fixed 100 100 0 0)
      (ListingConditions.mk none none none) STATE_ACTIVE 0)
    rfl rfl rfl rfl rfl rfl rfl

theorem force_cancel_ok_inv {ctx : ForceCancelCtx} {now : Int} {coll : Nat}
    {att : Attestation} {eff : List Effect}
    (h : force_cancel ctx now coll = Except.ok (att, eff)) :
    ctx.attestation.used = false ∧ att = { ctx.attestation with used := true } ∧
    eff = [Effect.markUsed, Effect.transferNft, Effect.closeVaultAta] := by
  unfold force_cancel at h
  by_cases hc1 : ctx.listing.state ≠ STATE_OPEN
  · rw [if_pos hc1] at h
    exact Except.noConfusion h
  rw [if_neg hc1] at h
  by_cases hc2 : ctx.vault_ata.key ≠ ctx.listing.vault_ata
  · rw [if_pos hc2] at h
    exact Except.noConfusion h
  rw [if_neg hc2] at h
  by_cases hc3 : ctx.vault_ata.amount ≠ 1
  · rw [if_pos hc3] at h
    exact Except.noConfusion h
  rw [if_neg hc3] at h
  by_cases hc4 : ctx.seller ≠ ctx.listing.seller
  · rw [if_pos hc4] at h
    exact Except.noConfusion h
  rw [if_neg hc4] at h
  by_cases hc5 : ctx.seller_token_account.owner ≠ ctx.seller
  · rw [if_pos hc5] at h
    exact Except.noConfusion h
  rw [if_neg hc5] at h
  by_cases hc6 : ctx.seller_token_account.mint ≠ ctx.listing.mint
  · rw [if_pos hc6] at h
    exact Except.noConfusion h
  rw [if_neg hc6] at h
  by_cases hc7 : ctx.attestation.attestor ≠ ctx.config.authority
  · rw [if_pos hc7] at h
    exact Except.noConfusion h
  rw [if_neg hc7] at h
  by_cases hc8 : ctx.attestation.used = true
  · rw [if_pos hc8] at h
    exact Except.noConfusion h
  rw [if_neg hc8] at h
  by_cases hc9 : ctx.attestor_state.attestor ≠ ctx.attestation.attestor
  · rw [if_pos hc9] at h
    exact Except.noConfusion h
  rw [if_neg hc9] at h
  by_cases hc10 : ctx.attestation.collection ≠ coll
  · rw [if_pos hc10] at h
    exact Except.noConfusion h
  rw [if_neg hc10] at h
  rcases hsub : i64_checked_sub now ctx.attestation.ts with _ | age <;> rw [hsub] at h
  · exact Except.noConfusion h
  · dsimp only at h
    by_cases hc11 : ¬ age ≤ 300
    · rw [if_pos hc11] at h
      exact Except.noConfusion h
    rw [if_neg hc11] at h
    by_cases hc12 : ¬ ctx.attestation.floor < ctx.listing.min_price
    · rw [if_pos hc12] at h
      exact Except.noConfusion h
    rw [if_neg hc12] at h
    obtain ⟨h1, h2⟩ := Prod.mk.inj (Except.ok.inj h)
    exact ⟨by simpa using hc8, h1.symm, h2.symm⟩

/-- Claim C3: Each attestation is consumable at most once: a successful
`force_cancel` returns the attestation with `used = true` and issues the
mark-used effect before the asset transfer and vault close; a `force_cancel`
on an already-used attestation whose preceding account constraints all pass
fails with `AttestationUsed`; and after any successful `force_cancel`, no
`force_cancel` whose attestation account is the consumed record can succeed,
whatever the other accounts, time, or collection argument are. -/
theorem attestation_single_use :
    (∀ (ctx : ForceCancelCtx) (now : Int) (coll : Nat) (att : Attestation)
        (eff : List Effect),
      force_cancel ctx now coll = Except.ok (att, eff) →
      att.used = true ∧ eff = [Effect.markUsed, Effect.transferNft, Effect.closeVaultAta]) ∧
    (∀ (ctx : ForceCancelCtx) (now : Int) (coll : Nat),
      ctx.listing.state = STATE_OPEN →
      ctx.vault_ata.key = ctx.listing.vault_ata →
      ctx.vault_ata.amount = 1 →
      ctx.seller = ctx.listing.seller →
      ctx.seller_token_account.owner = ctx.seller →
      ctx.seller_token_account.mint = ctx.listing.mint →
      ctx.attestation.attestor = ctx.config.authority →
      ctx.attestation.used = true →
      force_cancel ctx now coll = Except.error VerityError.AttestationUsed) ∧
    (∀ (ctx : ForceCancelCtx) (now : Int) (coll : Nat) (att : Attestation)
        (eff : List Effect) (ctx' : ForceCancelCtx) (now' : Int) (coll' : Nat)
        (r : Attestation × List Effect),
      force_cancel ctx now coll = Except.ok (att, eff) →
      ctx'.attestation = att →
      force_cancel ctx' now' coll' ≠ Except.ok r) := by
  refine ⟨?_, ?_, ?_⟩
  · intro ctx now coll att eff h
    obtain ⟨_, h2, h3⟩ := force_cancel_ok_inv h
    exact ⟨by rw [h2], h3⟩
  · intro ctx now coll hst hkey hamt hsell hown hmint hatt hused
    unfold force_cancel
    rw [if_neg (not_not_intro hst), if_neg (not_not_intro hkey),
        if_neg (not_not_intro hamt), if_neg (not_not_intro hsell),
        if_neg (not_not_intro hown), if_neg (not_not_intro hmint),
        if_neg (not_not_intro hatt), if_pos hused]
  · intro ctx now coll att eff ctx' now' coll' r h hsame hok
    obtain ⟨_, hatt, _⟩ := force_cancel_ok_inv h
    obtain ⟨hused', _, _⟩ := force_cancel_ok_inv hok
    rw [hsame, hatt] at hused'
    exact Bool.noConfusion hused'

/-- Witness for C3: a concrete already-used attestation (all preceding account
constraints satisfied) is rejected with `AttestationUsed`. -/
theorem attestation_single_use_witness :
    force_cancel
      (ForceCancelCtx.mk
        (Legacy.Listing.mk 1 2 3 1000 200 0 10 STATE_OPEN 0)
        (TokenAccount.mk 3 9 2 1) 1 (TokenAccount.mk 4 1 2 0)
        (Attestation.mk 7 5 100 0 0 true) (AttestorState.mk 7 1)
        (Config.mk 7 250 8))
      100 5
      = Except.error VerityError.AttestationUsed :=
  attestation_single_use.2.1
    (ForceCancelCtx.mk
      (Legacy.Listing.mk 1 2 3 1000 200 0 10 STATE_OPEN 0)
      (TokenAccount.mk 3 9 2 1) 1 (TokenAccount.mk 4 1 2 0)
      (Attestation.mk 7 5 100 0 0 true) (AttestorState.mk 7 1)
      (Config.mk 7 250 8))
    100 5 rfl rfl rfl rfl rfl rfl rfl rfl

/-- Counterexample for C4: with every listed precondition satisfied (attestor
matches the config authority, unused flag, matching collection, floor below
the listing's `min_price`) and the attestation older than 300 seconds, the
failure is `ArithmeticOverflow` — not `AttestationExpired` — because the
difference `now − ts` overflows the `i64` `checked_sub`. -/
theorem force_cancel_expired_cex :
    force_cancel
      (ForceCancelCtx.mk
        (Legacy.Listing.mk 1 2 3 1000 200 0 10 STATE_OPEN 0)
        (TokenAccount.mk 3 9 2 1) 1 (TokenAccount.mk 4 1 2 0)
        (Attestation.mk 7 5 100 (-2) 0 false) (AttestorState.mk 7 1)
        (Config.mk 7 250 8))
      I64_MAX 5
      = Except.error VerityError.ArithmeticOverflow ∧
    300 < I64_MAX - (-2 : Int) ∧
    (100 : Nat) < 200 ∧
    VerityError.ArithmeticOverflow ≠ VerityError.AttestationExpired := by decide

/-- Claim C4, amended: When every other precondition of `force_cancel` holds
(attestor, account constraints, unused flag, collection), a difference
`now − ts` above 300 seconds that is representable as `i64` fails with
`AttestationExpired` (an unrepresentable difference fails with
`ArithmeticOverflow` through the checked subtraction instead); a difference of
at most 300 seconds passes the TTL check, after which the call is decided
solely by the floor condition. -/
theorem force_cancel_ttl (ctx : ForceCancelCtx) (now : Int) (coll : Nat)
    (hst : ctx.listing.state = STATE_OPEN)
    (hkey : ctx.vault_ata.key = ctx.listing.vault_ata)
    (hamt : ctx.vault_ata.amount = 1)
    (hsell : ctx.seller = ctx.listing.seller)
    (hown : ctx.seller_token_account.owner = ctx.seller)
    (hmint : ctx.seller_token_account.mint = ctx.listing.mint)
    (hatt : ctx.attestation.attestor = ctx.config.authority)
    (hused : ctx.attestation.used = false)
    (hast : ctx.attestor_state.attestor = ctx.attestation.attestor)
    (hcoll : ctx.attestation.collection = coll) :
    (300 < now - ctx.attestation.ts → now - ctx.attestation.ts ≤ I64_MAX →
      force_cancel ctx now coll = Except.error VerityError.AttestationExpired) ∧
    (I64_MIN ≤ now - ctx.attestation.ts → now - ctx.attestation.ts ≤ 300 →
      ctx.attestation.floor < ctx.listing.min_price →
      force_cancel ctx now coll
        = Except.ok ({ ctx.attestation with used := true },
            [Effect.markUsed, Effect.transferNft, Effect.closeVaultAta])) ∧
    (I64_MIN ≤ now - ctx.attestation.ts → now - ctx.attestation.ts ≤ 300 →
      ¬ ctx.attestation.floor < ctx.listing.min_price →
      force_cancel ctx now coll = Except.error VerityError.FloorTooHigh) := by
  have hused' : ¬ ctx.attestation.used = true := by simp [hused]
  have hpre :
      force_cancel ctx now coll
        = (match i64_checked_sub now ctx.attestation.ts with
           | none => Except.error VerityError.ArithmeticOverflow
           | some age =>
             if ¬ age ≤ 300 then Except.error VerityError.AttestationExpired
             else if ¬ ctx.attestation.floor < ctx.listing.min_price then
               Except.error VerityError.FloorTooHigh
             else
               Except.ok ({ ctx.attestation with used := true },
                 [Effect.markUsed, Effect.transferNft, Effect.closeVaultAta])) := by
    unfold force_cancel
    rw [if_neg (not_not_intro hst), if_neg (not_not_intro hkey),
        if_neg (not_not_intro hamt), if_neg (not_not_intro hsell),
        if_neg (not_not_intro hown), if_neg (not_not_intro hmint),
        if_neg (not_not_intro hatt), if_neg hused',
        if_neg (not_not_intro hast), if_neg (not_not_intro hcoll)]
  refine ⟨?_, ?_, ?_⟩
  · intro h300 hrep
    rw [hpre]
    have hsub : i64_checked_sub now ctx.attestation.ts = some (now - ctx.attestation.ts) := by
      unfold i64_checked_sub
      rw [if_pos ⟨by simp only [I64_MIN]; omega, hrep⟩]
    rw [hsub]
    dsimp only
    rw [if_pos (by omega)]
  · intro hge hle hfloor
    rw [hpre]
    have hsub : i64_checked_sub now ctx.attestation.ts = some (now - ctx.attestation.ts) := by
      unfold i64_checked_sub
      rw [if_pos ⟨hge, by simp only [I64_MAX]; omega⟩]
    rw [hsub]
    dsimp only
    rw [if_neg (not_not_intro hle), if_neg (not_not_intro hfloor)]
  · intro hge hle hfloor
    rw [hpre]
    have hsub : i64_checked_sub now ctx.attestation.ts = some (now - ctx.attestation.ts) := by
      unfold i64_checked_sub
      rw [if_pos ⟨hge, by simp only [I64_MAX]; omega⟩]
    rw [hsub]
    dsimp only
    rw [if_neg (not_not_intro hle), if_pos hfloor]

/-- Witness for C4: a 400-second-old attestation, otherwise fully valid, is
rejected with `AttestationExpired`. -/
theorem force_cancel_ttl_witness :
    force_cancel
      (ForceCancelCtx.mk
        (Legacy.Listing.mk 1 2 3 1000 200 0 10 STATE_OPEN 0)
        (TokenAccount.mk 3 9 2 1) 1 (TokenAccount.mk 4 1 2 0)
        (Attestation.mk 7 5 100 0 0 false) (AttestorState.mk 7 1)
        (Config.mk 7 250 8))
      400 5
      = Except.error VerityError.AttestationExpired :=
  (force_cancel_ttl
    (ForceCancelCtx.mk
      (Legacy.Listing.mk 1 2 3 1000 200 0 10 STATE_OPEN 0)
      (TokenAccount.mk 3 9 2 1) 1 (TokenAccount.mk 4 1 2 0)
      (Attestation.mk 7 5 100 0 0 false) (AttestorState.mk 7 1)
      (Config.mk 7 250 8))
    400 5 rfl rfl rfl rfl rfl rfl rfl rfl rfl rfl).1
    (by decide) (by decide)


theorem buyNowSplit_inv {fee_bps price f r s : Nat}
    (hbps : fee_bps ≤ 1000) (hprice : price ≤ U64_MAX)
    (h : buyNowSplit fee_bps price = some (f, r, s)) :
    f = price * fee_bps / 10000 ∧ r = price * 500 / 10000 ∧
    f ≤ price ∧ r ≤ price - f ∧ s = price - f - r := by
  have hU : price ≤ 2 ^ 64 - 1 := by simpa [U64_MAX] using hprice
  have hm1 : price * fee_bps ≤ U128_MAX := by
    calc price * fee_bps ≤ (2 ^ 64 - 1) * 1000 := Nat.mul_le_mul hU hbps
      _ ≤ U128_MAX := by norm_num [U128_MAX]
  have hm2 : price * 500 ≤ U128_MAX := by
    calc price * 500 ≤ (2 ^ 64 - 1) * 500 := Nat.mul_le_mul_right _ hU
      _ ≤ U128_MAX := by norm_num [U128_MAX]
  have hfle : price * fee_bps / 10000 ≤ price := by
    have h1 : price * fee_bps ≤ price * 10000 := Nat.mul_le_mul_left _ (by omega)
    calc price * fee_bps / 10000 ≤ price * 10000 / 10000 := Nat.div_le_div_right h1
      _ = price := Nat.mul_div_cancel _ (by norm_num)
  have hrle : price * 500 / 10000 ≤ price := by
    have h1 : price * 500 ≤ price * 10000 := Nat.mul_le_mul_left _ (by omega)
    calc price * 500 / 10000 ≤ price * 10000 / 10000 := Nat.div_le_div_right h1
      _ = price := Nat.mul_div_cancel _ (by norm_num)
  have hcastf : u64_cast (price * fee_bps / 10000) = price * fee_bps / 10000 := by
    unfold u64_cast
    exact Nat.mod_eq_of_lt (by omega)
  have hcastr : u64_cast (price * 500 / 10000) = price * 500 / 10000 := by
    unfold u64_cast
    exact Nat.mod_eq_of_lt (by omega)
  unfold buyNowSplit at h
  rcases e1 : u128_checked_mul price fee_bps with _ | m1 <;> rw [e1] at h <;> dsimp only at h
  · exact Option.noConfusion h
  rcases e2 : u128_checked_div m1 10000 with _ | m2 <;> rw [e2] at h <;> dsimp only at h
  · exact Option.noConfusion h
  rcases e3 : u128_checked_mul price 500 with _ | r1 <;> rw [e3] at h <;> dsimp only at h
  · exact Option.noConfusion h
  rcases e4 : u128_checked_div r1 10000 with _ | r2 <;> rw [e4] at h <;> dsimp only at h
  · exact Option.noConfusion h
  rcases e5 : u64_checked_sub price (u64_cast m2) with _ | t <;> rw [e5] at h <;> dsimp only at h
  · exact Option.noConfusion h
  rcases e6 : u64_checked_sub t (u64_cast r2) with _ | sa <;> rw [e6] at h <;> dsimp only at h
  · exact Option.noConfusion h
  unfold u128_checked_mul at e1 e3
  rw [if_pos hm1] at e1
  rw [if_pos hm2] at e3
  obtain rfl := (Option.some.inj e1).symm
  obtain rfl := (Option.some.inj e3).symm
  unfold u128_checked_div at e2 e4
  rw [if_neg (by norm_num : ¬ (10000 : Nat) = 0)] at e2 e4
  obtain rfl := (Option.some.inj e2).symm
  obtain rfl := (Option.some.inj e4).symm
  unfold u64_checked_sub at e5 e6
  split_ifs at e5 with hs5
  · split_ifs at e6 with hs6
    · obtain rfl := (Option.some.inj e5).symm
      obtain rfl := (Option.some.inj e6).symm
      obtain ⟨rfl, rfl, rfl⟩ := Prod.mk.inj (Option.some.inj h) |>.imp id Prod.mk.inj
      rw [hcastf] at hs5 hs6 ⊢
      rw [hcastr] at hs6 ⊢
      exact ⟨rfl, rfl, hs5, hs6, rfl⟩

/-- Claim C1: For every `buy_now` fee computation that succeeds,
`marketplace_fee = ⌊price × fee_bps / 10000⌋` and
`royalty = ⌊price × 500 / 10000⌋` and
`marketplace_fee + royalty + seller_amount = price` exactly; the combined
fee + royalty never exceeds `price × (fee_bps + 500) / 10000` and is below
the exact product `price × (fee_bps + 500) / 10000` by at most 2 minor units
(`price × (fee_bps + 500) ≤ (fee + royalty + 2) × 10000`).  The hypothesis
`fee_bps ≤ 1000` is the `Config` invariant enforced by `initialize_config`. -/
theorem buy_now_fee_invariant (fee_bps price f r s : Nat)
    (hbps : fee_bps ≤ 1000) (hprice : price ≤ U64_MAX)
    (h : buyNowSplit fee_bps price = some (f, r, s)) :
    f = price * fee_bps / 10000 ∧
    r = price * 500 / 10000 ∧
    f + r + s = price ∧
    f + r ≤ price * (fee_bps + 500) / 10000 ∧
    price * (fee_bps + 500) ≤ (f + r + 2) * 10000 := by
  obtain ⟨hf, hr, hfle, hrle, hs⟩ := buyNowSplit_inv hbps hprice h
  have hab : price * (fee_bps + 500) = price * fee_bps + price * 500 := by ring
  refine ⟨hf, hr, by omega, ?_, ?_⟩
  · rw [hf, hr, hab]
    omega
  · rw [hf, hr, hab]
    omega

/-- Witness for C1 at the spec's scenario (`price = 600`, `fee_bps = 250`):
fee 15, royalty 30, seller amount 555, summing exactly to 600. -/
theorem buy_now_fee_invariant_witness :
    buyNowSplit 250 600 = some (15, 30, 555) ∧ (15 + 30 + 555 : Nat) = 600 :=
  ⟨by decide,
   (buy_now_fee_invariant 250 600 15 30 555 (by decide) (by decide) (by decide)).2.2.1⟩

/-- Counterexample for C2: at `price = 600`, `fee_bps = 250`, the royalty transfer
of 30 lamports is sent to the **seller** (`buy_now.rs` lines 160–174,
"simplified - send to seller"), not to a distinct royalty party: the seller
receives `555 + 30 = 585 ≠ 555 = seller_amount`, and no third transfer
destination exists. -/
theorem buy_now_royalty_to_seller_cex :
    buyNowSplit 250 600 = some (15, 30, 555) ∧
    buyNowTransfers 250 600
      = some [(Party.Seller, 555), (Party.FeeRecipient, 15), (Party.Seller, 30)] ∧
    paidTo Party.Seller
        [(Party.Seller, 555), (Party.FeeRecipient, 15), (Party.Seller, 30)]
      = 585 ∧
    (585 : Nat) ≠ 555 := by decide

/-- Claim C2, amended: On every successful `buy_now`, the payment is split
between exactly two recipients: the fee recipient receives `marketplace_fee`
and the seller receives `seller_amount` **plus the royalty** (the royalty
transfer is sent to the seller rather than to a distinct royalty party), so
the two recipients together receive exactly `price`. -/
theorem buy_now_transfer_totals (fee_bps price f r s : Nat)
    (ts : List (Party × Nat))
    (hbps : fee_bps ≤ 1000) (hprice : price ≤ U64_MAX)
    (h : buyNowSplit fee_bps price = some (f, r, s))
    (ht : buyNowTransfers fee_bps price = some ts) :
    paidTo Party.Seller ts = s + r ∧
    paidTo Party.FeeRecipient ts = f ∧
    paidTo Party.Seller ts + paidTo Party.FeeRecipient ts = price := by
  obtain ⟨hf, hr, hfle, hrle, hs⟩ := buyNowSplit_inv hbps hprice h
  unfold buyNowTransfers at ht
  rw [h] at ht
  dsimp only [Option.map] at ht
  obtain rfl := (Option.some.inj ht).symm
  have hsel : paidTo Party.Seller
      ((if 0 < s then [(Party.Seller, s)] else []) ++
        ((if 0 < f then [(Party.FeeRecipient, f)] else []) ++
          (if 0 < r then [(Party.Seller, r)] else []))) = s + r := by
    rw [paidTo_append, paidTo_append]
    rcases Nat.eq_zero_or_pos s with hs0 | hs0 <;>
      rcases Nat.eq_zero_or_pos f with hf0 | hf0 <;>
        rcases Nat.eq_zero_or_pos r with hr0 | hr0 <;>
          simp [paidTo, hs0, hf0, hr0]
  have hfee : paidTo Party.FeeRecipient
      ((if 0 < s then [(Party.Seller, s)] else []) ++
        ((if 0 < f then [(Party.FeeRecipient, f)] else []) ++
          (if 0 < r then [(Party.Seller, r)] else []))) = f := by
    rw [paidTo_append, paidTo_append]
    rcases Nat.eq_zero_or_pos s with hs0 | hs0 <;>
      rcases Nat.eq_zero_or_pos f with hf0 | hf0 <;>
        rcases Nat.eq_zero_or_pos r with hr0 | hr0 <;>
          simp [paidTo, hs0, hf0, hr0]
  have happ : (if 0 < s then [(Party.Seller, s)] else []) ++
      (if 0 < f then [(Party.FeeRecipient, f)] else []) ++
        (if 0 < r then [(Party.Seller, r)] else [])
      = (if 0 < s then [(Party.Seller, s)] else []) ++
        ((if 0 < f then [(Party.FeeRecipient, f)] else []) ++
          (if 0 < r then [(Party.Seller, r)] else [])) := List.append_assoc _ _ _
  rw [happ, hsel, hfee]
  omega

/-- Witness for C2 (amended) at `price = 600`, `fee_bps = 250`: the seller is
paid `555 + 30 = 585`, the fee recipient 15, together 600. -/
theorem buy_now_transfer_totals_witness :
    paidTo Party.Seller
        [(Party.Seller, 555), (Party.FeeRecipient, 15), (Party.Seller, 30)]
      = 555 + 30 ∧
    paidTo Party.FeeRecipient
        [(Party.Seller, 555), (Party.FeeRecipient, 15), (Party.Seller, 30)]
      = 15 :=
  ⟨(buy_now_transfer_totals 250 600 15 30 555
      [(Party.Seller, 555), (Party.FeeRecipient, 15), (Party.Seller, 30)]
      (by decide) (by decide) (by decide) (by decide)).1,
   (buy_now_transfer_totals 250 600 15 30 555
      [(Party.Seller, 555), (Party.FeeRecipient, 15), (Party.Seller, 30)]
      (by decide) (by decide) (by decide) (by decide)).2.1⟩

theorem issueRun_spec (config : Config) (now : Int) (collection floor : Nat) :
    ∀ (k : Nat) (st : AttestorState), st.last_nonce + k ≤ U64_MAX →
      issueRun config now collection floor k st
        = some (AttestorState.mk st.attestor (st.last_nonce + k),
            List.range' st.last_nonce k) := by
  intro k
  induction k with
  | zero =>
    intro st _
    simp [issueRun, List.range']
  | succ k ih =>
    intro st h
    have hadd : st.last_nonce + 1 ≤ U64_MAX := by omega
    have hca : create_attestation config config.authority st now collection floor
        = Except.ok (AttestorState.mk st.attestor (st.last_nonce + 1),
            Attestation.mk config.authority collection floor now st.last_nonce false) := by
      unfold create_attestation
      rw [if_neg (not_not_intro rfl)]
      unfold u64_checked_add
      rw [if_pos hadd]
    rw [issueRun, hca]
    dsimp only
    rw [ih (AttestorState.mk st.attestor (st.last_nonce + 1)) (by dsimp only; omega)]
    dsimp only [Option.map]
    rw [List.range'_succ]
    have harith : st.last_nonce + 1 + k = st.last_nonce + (k + 1) := by omega
    rw [harith]

/-- Claim C5: `initialize_attestor_state` stores `last_nonce = 0`; every
successful `create_attestation` stamps the new attestation with the pre-state
`last_nonce` and `used = false` and increments `last_nonce` by exactly one;
at `last_nonce = u64::MAX` it fails with `ArithmeticOverflow` instead of
wrapping; and `k` sequential issuances from a fresh state produce exactly the
nonces `0, 1, …, k−1` — strictly increasing, gap-free, never reused. -/
theorem attestation_nonce_discipline :
    (∀ (pre : AttestorState) (attestor : Nat), pre.attestor = 0 →
      initialize_attestor_state pre attestor
        = Except.ok (AttestorState.mk attestor 0)) ∧
    (∀ (config : Config) (a : Nat) (st st' : AttestorState) (now : Int)
        (c fl : Nat) (att : Attestation),
      create_attestation config a st now c fl = Except.ok (st', att) →
      att.nonce = st.last_nonce ∧ att.used = false ∧
        st'.last_nonce = st.last_nonce + 1) ∧
    (∀ (config : Config) (st : AttestorState) (now : Int) (c fl : Nat),
      st.last_nonce = U64_MAX →
      create_attestation config config.authority st now c fl
        = Except.error VerityError.ArithmeticOverflow) ∧
    (∀ (config : Config) (now : Int) (c fl : Nat) (k : Nat) (a : Nat),
      k ≤ U64_MAX →
      issueRun config now c fl k (AttestorState.mk a 0)
        = some (AttestorState.mk a k, List.range k)) := by
  refine ⟨?_, ?_, ?_, ?_⟩
  · intro pre attestor hpre
    unfold initialize_attestor_state
    rw [if_neg (not_not_intro hpre)]
  · intro config a st st' now c fl att h
    unfold create_attestation at h
    by_cases ha : a ≠ config.authority
    · rw [if_pos ha] at h
      exact Except.noConfusion h
    rw [if_neg ha] at h
    rcases hadd : u64_checked_add st.last_nonce 1 with _ | n <;> rw [hadd] at h
    · exact Except.noConfusion h
    unfold u64_checked_add at hadd
    split_ifs at hadd with hle
    obtain rfl := (Option.some.inj hadd).symm
    obtain ⟨h1, h2⟩ := Prod.mk.inj (Except.ok.inj h)
    rw [← h2, ← h1]
    exact ⟨rfl, rfl, rfl⟩
  · intro config st now c fl hmax
    unfold create_attestation
    rw [if_neg (not_not_intro rfl)]
    unfold u64_checked_add
    rw [hmax, if_neg (by omega : ¬ U64_MAX + 1 ≤ U64_MAX)]
  · intro config now c fl k a hk
    have h := issueRun_spec config now c fl k (AttestorState.mk a 0) (by dsimp only; omega)
    rw [h]
    simp [List.range_eq_range']

/-- Witness for C5: three sequential issuances from a fresh attestor state
yield nonces `[0, 1, 2]` and leave `last_nonce = 3`. -/
theorem attestation_nonce_discipline_witness :
    issueRun (Config.mk 7 250 8) 0 5 100 3 (AttestorState.mk 7 0)
      = some (AttestorState.mk 7 3, [0, 1, 2]) := by
  have h := attestation_nonce_discipline.2.2.2 (Config.mk 7 250 8) 0 5 100 3 7
    (by norm_num [U64_MAX])
  rw [h]
  decide
